import Mathlib

/-!
Shallow embedding of the core game logic of the Snake repository
(single source file, a React page component). The pure functions
`spawnFood`, `getNextTick`, `resolveDirectionInput` and `stepGame`
are translated directly; the two stateful pieces (the anti-reversal
input guard `applyInputDirection` working on the refs
`directionRef`/`pendingDirectionRef`, and the per-tick timer callback
of `HomePage`) are embedded as explicit state-passing functions.

JavaScript `Math.random()`-based choice in `spawnFood` is modelled by
an extra parameter `k : Nat`, the value of
`Math.floor(Math.random() * emptyCells.length)`; any actual run has
`k < emptyCells.length` whenever that list is nonempty.

The source keys its occupied-cell set by the string
`pointKey p = p.x + "," + p.y`, which is injective on integer points,
so set membership on keys coincides with list membership on points;
the embedding tests point membership directly.
-/

namespace Snake

/-- Source: `type Direction = 'up' | 'right' | 'down' | 'left'`. -/
inductive Direction where
  | up
  | right
  | down
  | left
deriving DecidableEq, Repr

/-- Source: `type Point = { x: number; y: number }`; coordinates are integers. -/
@[ext]
structure Point where
  x : Int
  y : Int
deriving DecidableEq, Repr

/-- Source: `const GRID_SIZE = 24`. -/
def GRID_SIZE : Nat := 24

/-- Source: `const BASE_TICK_MS = 150`. -/
def BASE_TICK_MS : Int := 150

/-- Source: `const MIN_TICK_MS = 80`. -/
def MIN_TICK_MS : Int := 80

/-- Source: `const SPEEDUP_EVERY_POINTS = 5`. -/
def SPEEDUP_EVERY_POINTS : Nat := 5

/-- Source: `const SPEEDUP_STEP_MS = 8`. -/
def SPEEDUP_STEP_MS : Int := 8

/-- Source: `const DIRECTION_VECTORS: Record<Direction, Point>`. -/
def DIRECTION_VECTORS : Direction → Point
  | .up => ⟨0, -1⟩
  | .right => ⟨1, 0⟩
  | .down => ⟨0, 1⟩
  | .left => ⟨-1, 0⟩

/-- Source: `const LEFT_TURN: Record<Direction, Direction>`. -/
def LEFT_TURN : Direction → Direction
  | .up => .left
  | .left => .down
  | .down => .right
  | .right => .up

/-- Source: `const RIGHT_TURN: Record<Direction, Direction>`. -/
def RIGHT_TURN : Direction → Direction
  | .up => .right
  | .right => .down
  | .down => .left
  | .left => .up

/-- Source: `const OPPOSITE_DIRECTION: Record<Direction, Direction>`. -/
def OPPOSITE_DIRECTION : Direction → Direction
  | .up => .down
  | .down => .up
  | .left => .right
  | .right => .left

/-- Source: `createInitialSnake()`: three cells centered on the grid. -/
def createInitialSnake : List Point :=
  let center : Int := GRID_SIZE / 2
  [⟨center, center⟩, ⟨center - 1, center⟩, ⟨center - 2, center⟩]

/-- The row-major enumeration of all grid cells produced by the two
nested loops of `spawnFood` (outer `y`, inner `x`, each `0 ≤ · < GRID_SIZE`). -/
def allCells : List Point :=
  (List.range GRID_SIZE).flatMap fun y =>
    (List.range GRID_SIZE).map fun x => ⟨Int.ofNat x, Int.ofNat y⟩

/-- The `emptyCells` array built inside `spawnFood`: all grid cells whose
key is not in the occupied set, i.e. cells not on the snake. -/
def emptyCells (snake : List Point) : List Point :=
  allCells.filter fun cell => decide (cell ∉ snake)

/-- Source: `spawnFood(snake)`, with the random index
`Math.floor(Math.random() * emptyCells.length)` passed in as `k`. -/
def spawnFood (snake : List Point) (k : Nat) : Point :=
  let empty := emptyCells snake
  if empty.length = 0 then snake.headD ⟨0, 0⟩
  else empty.getD k ⟨0, 0⟩

/-- Source: `getNextTick(score)`: tick interval in milliseconds. -/
def getNextTick (score : Nat) : Int :=
  let level : Int := (score / SPEEDUP_EVERY_POINTS : Nat)
  max MIN_TICK_MS (BASE_TICK_MS - level * SPEEDUP_STEP_MS)

/-- Character-wise lowercasing of a string: the model of JavaScript
`key.toLowerCase()`. Lean's own `String.toLower` maps the same
`Char.toLower` over the string but is defined by a non-reducible loop. -/
def toLowerCase (s : String) : String :=
  ⟨s.data.map Char.toLower⟩

/-- Source: `resolveDirectionInput(key, currentDirection)`: the `switch` on
`key.toLowerCase()`. -/
def resolveDirectionInput (key : String) (currentDirection : Direction) :
    Option Direction :=
  let k := toLowerCase key
  if k = "arrowup" then some .up
  else if k = "arrowright" then some .right
  else if k = "arrowdown" then some .down
  else if k = "arrowleft" then some .left
  else if k = "w" then some currentDirection
  else if k = "a" then some (LEFT_TURN currentDirection)
  else if k = "d" then some (RIGHT_TURN currentDirection)
  else none

/-- Return type of `stepGame`. -/
structure StepResult where
  nextSnake : List Point
  nextFood : Point
  ateFood : Bool
  isGameOver : Bool
deriving DecidableEq, Repr

/-- Source: `newHead = { x: head.x + delta.x, y: head.y + delta.y }` where
`head = snake[0]` and `delta = DIRECTION_VECTORS[direction]`. -/
def newHeadOf (snake : List Point) (direction : Direction) : Point :=
  let head := snake.headD ⟨0, 0⟩
  let delta := DIRECTION_VECTORS direction
  ⟨head.x + delta.x, head.y + delta.y⟩

/-- The `hitsWall` test of `stepGame`. -/
def hitsWall (p : Point) : Bool :=
  decide (p.x < 0) || decide (p.y < 0) ||
    decide ((GRID_SIZE : Int) ≤ p.x) || decide ((GRID_SIZE : Int) ≤ p.y)

/-- Source: `stepGame(snake, direction, food)`, with the random index for a
possible `spawnFood` call passed in as `k`. -/
def stepGame (snake : List Point) (direction : Direction) (food : Point)
    (k : Nat) : StepResult :=
  let newHead := newHeadOf snake direction
  if hitsWall newHead then
    { nextSnake := snake, nextFood := food, ateFood := false, isGameOver := true }
  else
    let ateFood := newHead.x == food.x && newHead.y == food.y
    let bodyToCheck := if ateFood then snake else snake.dropLast
    if bodyToCheck.any fun segment =>
        segment.x == newHead.x && segment.y == newHead.y then
      { nextSnake := snake, nextFood := food, ateFood := false, isGameOver := true }
    else
      let nextSnake' :=
        if ateFood then newHead :: snake else (newHead :: snake).dropLast
      { nextSnake := nextSnake',
        nextFood := if ateFood then spawnFood nextSnake' k else food,
        ateFood := ateFood,
        isGameOver := false }

/-- Source: `applyInputDirection(requestedDirection)` of `HomePage`, with the two
refs made explicit: `committed` is `directionRef.current`, `pending` is
`pendingDirectionRef.current`; the result is the new value of
`pendingDirectionRef.current`. -/
def applyInputDirection (committed : Direction) (pending : Option Direction)
    (requestedDirection : Direction) : Option Direction :=
  let activeDirection := pending.getD committed
  if requestedDirection = OPPOSITE_DIRECTION activeDirection then pending
  else some requestedDirection

/-- The pending direction after a sequence of key requests arriving between
two ticks, starting from `pending = null` (the tick callback resets
`pendingDirectionRef.current = null`). -/
def queueInputs (committed : Direction) (reqs : List Direction) :
    Option Direction :=
  reqs.foldl (applyInputDirection committed) none

/-- The heading committed at the start of the tick callback:
`pendingDirectionRef.current ?? directionRef.current`. -/
def commitDirection (committed : Direction) (pending : Option Direction) :
    Direction :=
  pending.getD committed

/-- The game state touched by the timer callback of `HomePage`. -/
structure TickState where
  snake : List Point
  food : Point
  score : Nat
  isGameOver : Bool
deriving Repr

/-- The timer callback body of `HomePage` (run only while started, not
paused and not game over): commit the pending heading, step the game,
update snake/food, bump the score on `ateFood`, raise the game-over flag.
Returns the committed heading (the new `directionRef.current`) and the
updated state. -/
def runTick (committed : Direction) (pending : Option Direction)
    (s : TickState) (k : Nat) : Direction × TickState :=
  let activeDirection := commitDirection committed pending
  let result := stepGame s.snake activeDirection s.food k
  (activeDirection,
    { snake := result.nextSnake,
      food := result.nextFood,
      score := if result.ateFood then s.score + 1 else s.score,
      isGameOver := if result.isGameOver then true else s.isGameOver })

/-- The in-bounds predicate `[0, GRID_SIZE) × [0, GRID_SIZE)` of the spec. -/
def inGrid (p : Point) : Prop :=
  0 ≤ p.x ∧ p.x < (GRID_SIZE : Int) ∧ 0 ≤ p.y ∧ p.y < (GRID_SIZE : Int)

instance (p : Point) : Decidable (inGrid p) := by
  unfold inGrid; infer_instance

/-- The self-collision check set of `stepGame`: the whole body when the
new head lands on the food, the body without its tail cell otherwise. -/
def bodyToCheckOf (snake : List Point) (direction : Direction) (food : Point) :
    List Point :=
  if newHeadOf snake direction = food then snake else snake.dropLast

/-! ### Helper lemmas -/

theorem hitsWall_eq_false_of {p : Point} (h : inGrid p) : hitsWall p = false := by
  obtain ⟨h1, h2, h3, h4⟩ := h
  simp only [hitsWall, Bool.or_eq_false_iff, decide_eq_false_iff_not, not_lt, not_le]
  omega

theorem hitsWall_eq_true_of {p : Point} (h : ¬ inGrid p) : hitsWall p = true := by
  simp only [inGrid, not_and_or, not_le, not_lt] at h
  simp only [hitsWall, Bool.or_eq_true, decide_eq_true_eq]
  omega

theorem coordBeq_eq_true_of {p q : Point} (h : p = q) :
    (p.x == q.x && p.y == q.y) = true := by
  subst h; simp

theorem coordBeq_eq_false_of {p q : Point} (h : p ≠ q) :
    (p.x == q.x && p.y == q.y) = false := by
  rw [Bool.eq_false_iff]
  intro hc
  simp only [Bool.and_eq_true, beq_iff_eq] at hc
  exact h (Point.ext hc.1 hc.2)

theorem anyCoordBeq_eq_true_of {l : List Point} {p : Point} (h : p ∈ l) :
    (l.any fun segment => segment.x == p.x && segment.y == p.y) = true := by
  rw [List.any_eq_true]
  exact ⟨p, h, by simp⟩

theorem anyCoordBeq_eq_false_of {l : List Point} {p : Point} (h : p ∉ l) :
    (l.any fun segment => segment.x == p.x && segment.y == p.y) = false := by
  rw [Bool.eq_false_iff]
  intro hc
  rw [List.any_eq_true] at hc
  obtain ⟨s, hs, hbeq⟩ := hc
  simp only [Bool.and_eq_true, beq_iff_eq] at hbeq
  exact h (Point.ext hbeq.1 hbeq.2 ▸ hs)

theorem hitsWall_eq_decide (p : Point) : hitsWall p = decide (¬ inGrid p) := by
  by_cases h : inGrid p
  · rw [hitsWall_eq_false_of h]; simp [h]
  · rw [hitsWall_eq_true_of h]; simp [h]

theorem coordBeq_eq_decide (p q : Point) :
    (p.x == q.x && p.y == q.y) = decide (p = q) := by
  by_cases h : p = q
  · rw [coordBeq_eq_true_of h]; simp [h]
  · rw [coordBeq_eq_false_of h]; simp [h]

theorem any_eq_decide (l : List Point) (p : Point) :
    (l.any fun segment => segment.x == p.x && segment.y == p.y) =
      decide (p ∈ l) := by
  by_cases h : p ∈ l
  · rw [anyCoordBeq_eq_true_of h]; simp [h]
  · rw [anyCoordBeq_eq_false_of h]; simp [h]

/-- Characterization of `stepGame` in terms of `inGrid` and `bodyToCheckOf`. -/
theorem stepGame_char (snake : List Point) (direction : Direction) (food : Point)
    (k : Nat) :
    stepGame snake direction food k =
      if ¬ inGrid (newHeadOf snake direction) then
        { nextSnake := snake, nextFood := food, ateFood := false, isGameOver := true }
      else if newHeadOf snake direction ∈ bodyToCheckOf snake direction food then
        { nextSnake := snake, nextFood := food, ateFood := false, isGameOver := true }
      else if newHeadOf snake direction = food then
        { nextSnake := newHeadOf snake direction :: snake,
          nextFood := spawnFood (newHeadOf snake direction :: snake) k,
          ateFood := true, isGameOver := false }
      else
        { nextSnake := (newHeadOf snake direction :: snake).dropLast,
          nextFood := food, ateFood := false, isGameOver := false } := by
  simp only [stepGame, hitsWall_eq_decide, coordBeq_eq_decide, any_eq_decide,
    decide_eq_true_eq, bodyToCheckOf]
  by_cases hw : inGrid (newHeadOf snake direction)
  · by_cases hf : newHeadOf snake direction = food
    · by_cases hm : newHeadOf snake direction ∈ snake
      · simp [hw, hf, hm]
      · simp [hw, hf, hm]
    · by_cases hm : newHeadOf snake direction ∈ snake.dropLast
      · simp [hw, hf, hm]
      · simp [hw, hf, hm]
  · simp [hw]

theorem mem_allCells {p : Point} : p ∈ allCells ↔ inGrid p := by
  have hgN : GRID_SIZE = 24 := rfl
  have hgZ : ((GRID_SIZE : Nat) : Int) = 24 := rfl
  constructor
  · intro hp
    rw [allCells, List.mem_flatMap] at hp
    obtain ⟨y, hy, hp⟩ := hp
    rw [List.mem_map] at hp
    obtain ⟨x, hx, hpe⟩ := hp
    rw [List.mem_range, hgN] at hy hx
    subst hpe
    show (0 : Int) ≤ Int.ofNat x ∧ Int.ofNat x < ((GRID_SIZE : Nat) : Int) ∧
      (0 : Int) ≤ Int.ofNat y ∧ Int.ofNat y < ((GRID_SIZE : Nat) : Int)
    rw [hgZ]
    simp only [Int.ofNat_eq_natCast]
    refine ⟨?_, ?_, ?_, ?_⟩ <;> omega
  · intro hp
    obtain ⟨h1, h2, h3, h4⟩ := hp
    rw [hgZ] at h2 h4
    rw [allCells, List.mem_flatMap]
    have hy' : p.y.toNat < GRID_SIZE := by rw [hgN]; omega
    have hx' : p.x.toNat < GRID_SIZE := by rw [hgN]; omega
    refine ⟨p.y.toNat, List.mem_range.mpr hy',
      List.mem_map.mpr ⟨p.x.toNat, List.mem_range.mpr hx', ?_⟩⟩
    ext
    · show Int.ofNat p.x.toNat = p.x
      simp only [Int.ofNat_eq_natCast]
      omega
    · show Int.ofNat p.y.toNat = p.y
      simp only [Int.ofNat_eq_natCast]
      omega

theorem mem_emptyCells {snake : List Point} {c : Point} :
    c ∈ emptyCells snake ↔ inGrid c ∧ c ∉ snake := by
  simp [emptyCells, List.mem_filter, mem_allCells]

theorem emptyCells_ne_nil {snake : List Point} {c : Point} (h1 : inGrid c)
    (h2 : c ∉ snake) : emptyCells snake ≠ [] := by
  intro hnil
  have : c ∈ emptyCells snake := mem_emptyCells.mpr ⟨h1, h2⟩
  rw [hnil] at this
  exact List.not_mem_nil c this

theorem emptyCells_eq_nil_of_full {snake : List Point}
    (h : ∀ c, inGrid c → c ∈ snake) : emptyCells snake = [] := by
  rw [emptyCells, List.filter_eq_nil_iff]
  intro c hc
  simp only [decide_eq_true_eq, Decidable.not_not]
  exact h c (mem_allCells.mp hc)

theorem spawnFood_mem {snake : List Point} {k : Nat}
    (h : k < (emptyCells snake).length) :
    spawnFood snake k ∈ emptyCells snake := by
  unfold spawnFood
  rw [if_neg (by omega)]
  rw [List.getD_eq_getElem _ _ h]
  exact List.getElem_mem h

theorem spawnFood_of_full {snake : List Point} (h : emptyCells snake = [])
    (k : Nat) : spawnFood snake k = snake.headD ⟨0, 0⟩ := by
  unfold spawnFood
  rw [if_pos (by rw [h]; rfl)]

/-! ### Claim theorems -/

/-- C9: `getNextTick score` equals `max(80, 150 − floor(score/5)·8)`, is
monotonically non-increasing as the score increases, never drops below
80 (`MIN_TICK_MS`), and in particular `getNextTick 12 = 134`. -/
theorem getNextTick_spec :
    (∀ score : Nat,
      getNextTick score = max 80 (150 - ((score / 5 : Nat) : Int) * 8)) ∧
    (∀ s t : Nat, s ≤ t → getNextTick t ≤ getNextTick s) ∧
    (∀ score : Nat, MIN_TICK_MS ≤ getNextTick score) ∧
    getNextTick 12 = 134 := by
  refine ⟨fun score => rfl, ?_, ?_, by decide⟩
  · intro s t hst
    have hdiv : s / SPEEDUP_EVERY_POINTS ≤ t / SPEEDUP_EVERY_POINTS :=
      Nat.div_le_div_right hst
    have hz : ((s / SPEEDUP_EVERY_POINTS : Nat) : Int) ≤
        ((t / SPEEDUP_EVERY_POINTS : Nat) : Int) := by exact_mod_cast hdiv
    unfold getNextTick
    apply max_le_max le_rfl
    have h8 : (0 : Int) ≤ SPEEDUP_STEP_MS := by norm_num [SPEEDUP_STEP_MS]
    exact sub_le_sub_left (mul_le_mul_of_nonneg_right hz h8) _
  · intro score
    unfold getNextTick
    exact le_max_left _ _

/-- Witness for C9 at scores 3 and 7. -/
theorem getNextTick_spec_witness :
    (3 : Nat) ≤ 7 ∧ getNextTick 7 ≤ getNextTick 3 :=
  ⟨by decide, getNextTick_spec.2.1 3 7 (by decide)⟩

/-- C10: whenever `stepGame` reports game over it also reports
`ateFood = false`, even when the new head cell equals the food cell. -/
theorem gameOver_not_ateFood (snake : List Point) (direction : Direction)
    (food : Point) (k : Nat)
    (h : (stepGame snake direction food k).isGameOver = true) :
    (stepGame snake direction food k).ateFood = false := by
  rw [stepGame_char] at h ⊢
  by_cases hw : ¬ inGrid (newHeadOf snake direction)
  · rw [if_pos hw]
  · rw [if_neg hw] at h ⊢
    by_cases hm : newHeadOf snake direction ∈ bodyToCheckOf snake direction food
    · rw [if_pos hm]
    · rw [if_neg hm] at h
      by_cases hf : newHeadOf snake direction = food
      · rw [if_pos hf] at h
        exact absurd h (by simp)
      · rw [if_neg hf] at h
        exact absurd h (by simp)

/-- Witness for C10: the new head lands on food that coincides with the
snake's tail cell, so the step is game over and food is not eaten. -/
theorem gameOver_not_ateFood_witness :
    (stepGame [(⟨12,12⟩ : Point), ⟨12,11⟩, ⟨13,11⟩, ⟨13,12⟩] .right ⟨13,12⟩
      0).isGameOver = true ∧
    (stepGame [(⟨12,12⟩ : Point), ⟨12,11⟩, ⟨13,11⟩, ⟨13,12⟩] .right ⟨13,12⟩
      0).ateFood = false :=
  ⟨by decide, gameOver_not_ateFood _ _ _ _ (by decide)⟩

/-- C5: `applyInputDirection` drops a request exactly when it is the
opposite of the pending heading if one is queued, else of the committed
heading, leaving the pending slot unchanged; every accepted request
overwrites the pending slot. -/
theorem applyInputDirection_spec (committed : Direction)
    (pending : Option Direction) (requestedDirection : Direction) :
    (requestedDirection = OPPOSITE_DIRECTION (pending.getD committed) →
      applyInputDirection committed pending requestedDirection = pending) ∧
    (requestedDirection ≠ OPPOSITE_DIRECTION (pending.getD committed) →
      applyInputDirection committed pending requestedDirection =
        some requestedDirection) := by
  unfold applyInputDirection
  exact ⟨fun h => by rw [if_pos h], fun h => by rw [if_neg h]⟩

/-- Witness for C5: with committed heading right and no pending heading,
a left request is dropped and an up request is queued. -/
theorem applyInputDirection_spec_witness :
    applyInputDirection .right none .left = none ∧
    applyInputDirection .right none .up = some .up :=
  ⟨(applyInputDirection_spec .right none .left).1 (by decide),
   (applyInputDirection_spec .right none .up).2 (by decide)⟩

/-- C4 counterexample: with committed heading right, queueing up and then
left between two ticks commits left — the exact opposite of right — so the
committed heading can reverse in one tick. -/
theorem committed_reversal_counterexample :
    commitDirection .right (queueInputs .right [.up, .left]) =
      OPPOSITE_DIRECTION .right := by decide

/-- C4 (amended): when at most one direction input is queued between two
consecutive ticks, the heading committed at the next tick is never the
exact opposite of the currently committed heading; with two or more queued
inputs the guard only checks against the pending heading, and the
committed heading can reverse. -/
theorem no_reversal_single_queued_input (committed : Direction)
    (reqs : List Direction) (h : reqs.length ≤ 1) :
    commitDirection committed (queueInputs committed reqs) ≠
      OPPOSITE_DIRECTION committed := by
  rcases reqs with _ | ⟨r, rest⟩
  · cases committed <;> decide
  · rcases rest with _ | ⟨r2, rest2⟩
    · cases committed <;> cases r <;> decide
    · simp only [List.length_cons] at h
      omega

/-- Witness for C4 (amended): a single queued up input while heading right
does not commit a reversal. -/
theorem no_reversal_single_queued_input_witness :
    ([Direction.up].length ≤ 1) ∧
    commitDirection .right (queueInputs .right [.up]) ≠
      OPPOSITE_DIRECTION .right :=
  ⟨by decide, no_reversal_single_queued_input .right [.up] (by decide)⟩

/-- C2: `stepGame` reports game over exactly when the new head leaves the
grid or hits the collision check set (the whole body when the new head is
on the food, the body without its tail otherwise), and in every game-over
case it returns the snake and the food unchanged. -/
theorem stepGame_gameOver_iff (snake : List Point) (direction : Direction)
    (food : Point) (k : Nat) (hne : snake ≠ []) :
    ((stepGame snake direction food k).isGameOver = true ↔
      ¬ inGrid (newHeadOf snake direction) ∨
        newHeadOf snake direction ∈ bodyToCheckOf snake direction food) ∧
    ((stepGame snake direction food k).isGameOver = true →
      (stepGame snake direction food k).nextSnake = snake ∧
      (stepGame snake direction food k).nextFood = food) := by
  rw [stepGame_char]
  by_cases hw : ¬ inGrid (newHeadOf snake direction)
  · rw [if_pos hw]
    exact ⟨⟨fun _ => Or.inl hw, fun _ => rfl⟩, fun _ => ⟨rfl, rfl⟩⟩
  · rw [if_neg hw]
    by_cases hm : newHeadOf snake direction ∈ bodyToCheckOf snake direction food
    · rw [if_pos hm]
      exact ⟨⟨fun _ => Or.inr hm, fun _ => rfl⟩, fun _ => ⟨rfl, rfl⟩⟩
    · rw [if_neg hm]
      by_cases hf : newHeadOf snake direction = food
      · rw [if_pos hf]
        exact ⟨⟨fun h => absurd h (by simp),
            fun h => h.elim (fun h1 => absurd h1 hw) (fun h2 => absurd h2 hm)⟩,
          fun h => absurd h (by simp)⟩
      · rw [if_neg hf]
        exact ⟨⟨fun h => absurd h (by simp),
            fun h => h.elim (fun h1 => absurd h1 hw) (fun h2 => absurd h2 hm)⟩,
          fun h => absurd h (by simp)⟩

/-- Witness for C2: moving left from (0,12) hits the wall; the snake and
the food come back unchanged. -/
theorem stepGame_gameOver_iff_witness :
    (stepGame [(⟨0,12⟩ : Point), ⟨1,12⟩, ⟨2,12⟩] .left ⟨5,5⟩ 0).nextSnake =
      [(⟨0,12⟩ : Point), ⟨1,12⟩, ⟨2,12⟩] ∧
    (stepGame [(⟨0,12⟩ : Point), ⟨1,12⟩, ⟨2,12⟩] .left ⟨5,5⟩ 0).nextFood =
      ⟨5,5⟩ :=
  (stepGame_gameOver_iff [⟨0,12⟩, ⟨1,12⟩, ⟨2,12⟩] .left ⟨5,5⟩ 0
    (by decide)).2 (by decide)

/-- C3: a step that does not end the game preserves the
no-duplicate-cells invariant of the snake body. -/
theorem stepGame_preserves_nodup (snake : List Point) (direction : Direction)
    (food : Point) (k : Nat) (hnd : snake.Nodup)
    (h : (stepGame snake direction food k).isGameOver = false) :
    (stepGame snake direction food k).nextSnake.Nodup := by
  rw [stepGame_char] at h ⊢
  by_cases hw : ¬ inGrid (newHeadOf snake direction)
  · rw [if_pos hw] at h
    exact absurd h (by simp)
  · rw [if_neg hw] at h ⊢
    by_cases hm : newHeadOf snake direction ∈ bodyToCheckOf snake direction food
    · rw [if_pos hm] at h
      exact absurd h (by simp)
    · rw [if_neg hm] at h ⊢
      by_cases hf : newHeadOf snake direction = food
      · rw [if_pos hf]
        have hm' : newHeadOf snake direction ∉ snake := by
          simpa [bodyToCheckOf, hf] using hm
        exact List.nodup_cons.mpr ⟨hm', hnd⟩
      · rw [if_neg hf]
        have hm' : newHeadOf snake direction ∉ snake.dropLast := by
          simpa [bodyToCheckOf, hf] using hm
        cases snake with
        | nil => simp
        | cons a tail =>
          rw [List.dropLast_cons₂]
          exact List.nodup_cons.mpr
            ⟨hm', List.Nodup.sublist (List.dropLast_sublist _) hnd⟩

/-- Witness for C3 at the food-eating example step. -/
theorem stepGame_preserves_nodup_witness :
    (stepGame [(⟨12,12⟩ : Point), ⟨11,12⟩, ⟨10,12⟩] .right ⟨13,12⟩
      0).nextSnake.Nodup :=
  stepGame_preserves_nodup _ _ _ _ (by decide) (by decide)

/-- C8: a surviving step grows the body by exactly 1 when food was eaten
and keeps its length otherwise; length never decreases and is unchanged on
game over; eating food bumps the score by exactly 1 in the same tick. -/
theorem stepGame_length_score_spec (snake : List Point) (direction : Direction)
    (food : Point) (k : Nat) :
    ((stepGame snake direction food k).isGameOver = false →
      (stepGame snake direction food k).nextSnake.length =
        if (stepGame snake direction food k).ateFood = true then
          snake.length + 1
        else snake.length) ∧
    snake.length ≤ (stepGame snake direction food k).nextSnake.length ∧
    ((stepGame snake direction food k).isGameOver = true →
      (stepGame snake direction food k).nextSnake = snake) ∧
    (∀ (committed : Direction) (pending : Option Direction) (s : TickState),
      (runTick committed pending s k).2.score =
        if (stepGame s.snake (commitDirection committed pending) s.food
            k).ateFood = true then
          s.score + 1
        else s.score) := by
  refine ⟨?_, ?_, ?_, ?_⟩
  · intro h
    rw [stepGame_char] at h ⊢
    by_cases hw : ¬ inGrid (newHeadOf snake direction)
    · rw [if_pos hw] at h
      exact absurd h (by simp)
    · rw [if_neg hw] at h ⊢
      by_cases hm : newHeadOf snake direction ∈ bodyToCheckOf snake direction food
      · rw [if_pos hm] at h
        exact absurd h (by simp)
      · rw [if_neg hm] at h ⊢
        by_cases hf : newHeadOf snake direction = food
        · rw [if_pos hf]
          simp
        · rw [if_neg hf]
          simp [List.length_dropLast]
  · rw [stepGame_char]
    by_cases hw : ¬ inGrid (newHeadOf snake direction)
    · rw [if_pos hw]
    · rw [if_neg hw]
      by_cases hm : newHeadOf snake direction ∈ bodyToCheckOf snake direction food
      · rw [if_pos hm]
      · rw [if_neg hm]
        by_cases hf : newHeadOf snake direction = food
        · rw [if_pos hf]
          simp
        · rw [if_neg hf]
          simp [List.length_dropLast]
  · intro h
    rw [stepGame_char] at h ⊢
    by_cases hw : ¬ inGrid (newHeadOf snake direction)
    · rw [if_pos hw]
    · rw [if_neg hw] at h ⊢
      by_cases hm : newHeadOf snake direction ∈ bodyToCheckOf snake direction food
      · rw [if_pos hm]
      · rw [if_neg hm] at h
        by_cases hf : newHeadOf snake direction = food
        · rw [if_pos hf] at h
          exact absurd h (by simp)
        · rw [if_neg hf] at h
          exact absurd h (by simp)
  · intro committed pending s
    unfold runTick
    cases hA : (stepGame s.snake (commitDirection committed pending) s.food
        k).ateFood
    · simp [hA]
    · simp [hA]

/-- Witness for C8 at the food-eating example step. -/
theorem stepGame_length_score_spec_witness :
    (stepGame [(⟨12,12⟩ : Point), ⟨11,12⟩, ⟨10,12⟩] .right ⟨13,12⟩
      0).nextSnake.length =
      if (stepGame [(⟨12,12⟩ : Point), ⟨11,12⟩, ⟨10,12⟩] .right ⟨13,12⟩
          0).ateFood = true then 3 + 1 else 3 :=
  (stepGame_length_score_spec [⟨12,12⟩, ⟨11,12⟩, ⟨10,12⟩] .right ⟨13,12⟩ 0).1
    (by decide)

/-- C1: when the new head stays on the grid and misses the collision check
set, the step survives: food is eaten exactly when the new head is the
food cell, the new head is prepended with the tail dropped exactly when no
food was eaten, the food is unchanged unless eaten, and an eaten food is
respawned by `spawnFood` against the new body, landing on a free in-grid
cell. -/
theorem stepGame_normal_step (snake : List Point) (direction : Direction)
    (food : Point) (k : Nat) (hne : snake ≠ [])
    (hw : inGrid (newHeadOf snake direction))
    (hm : newHeadOf snake direction ∉ bodyToCheckOf snake direction food) :
    ((stepGame snake direction food k).isGameOver = false) ∧
    ((stepGame snake direction food k).ateFood = true ↔
      newHeadOf snake direction = food) ∧
    ((stepGame snake direction food k).nextSnake =
      newHeadOf snake direction ::
        (if newHeadOf snake direction = food then snake else snake.dropLast)) ∧
    (newHeadOf snake direction ≠ food →
      (stepGame snake direction food k).nextFood = food) ∧
    (newHeadOf snake direction = food →
      (stepGame snake direction food k).nextFood =
        spawnFood (newHeadOf snake direction :: snake) k ∧
      (k < (emptyCells (newHeadOf snake direction :: snake)).length →
        (stepGame snake direction food k).nextFood ∉
          newHeadOf snake direction :: snake ∧
        inGrid (stepGame snake direction food k).nextFood)) := by
  rw [stepGame_char, if_neg (not_not.mpr hw), if_neg hm]
  by_cases hf : newHeadOf snake direction = food
  · rw [if_pos hf]
    refine ⟨rfl, ⟨fun _ => hf, fun _ => rfl⟩, by rw [if_pos hf],
      fun h => absurd hf h, fun _ => ⟨rfl, fun hk => ?_⟩⟩
    have hmem := mem_emptyCells.mp (spawnFood_mem hk)
    exact ⟨hmem.2, hmem.1⟩
  · rw [if_neg hf]
    refine ⟨rfl, ⟨fun h => absurd h (by simp), fun h => absurd h hf⟩,
      ?_, fun _ => rfl, fun h => absurd h hf⟩
    rw [if_neg hf]
    cases snake with
    | nil => exact absurd rfl hne
    | cons a tail => rw [List.dropLast_cons₂]

set_option maxRecDepth 40000 in
/-- Witness for C1 at the example step: eating the food at (13,12) yields
the four-cell body and a respawned food off the new body. -/
theorem stepGame_normal_step_witness :
    (stepGame [(⟨12,12⟩ : Point), ⟨11,12⟩, ⟨10,12⟩] .right ⟨13,12⟩
      0).nextSnake = [(⟨13,12⟩ : Point), ⟨12,12⟩, ⟨11,12⟩, ⟨10,12⟩] ∧
    (stepGame [(⟨12,12⟩ : Point), ⟨11,12⟩, ⟨10,12⟩] .right ⟨13,12⟩
      0).ateFood = true ∧
    (stepGame [(⟨12,12⟩ : Point), ⟨11,12⟩, ⟨10,12⟩] .right ⟨13,12⟩
      0).nextFood ∉ [(⟨13,12⟩ : Point), ⟨12,12⟩, ⟨11,12⟩, ⟨10,12⟩] := by
  have h := stepGame_normal_step [(⟨12,12⟩ : Point), ⟨11,12⟩, ⟨10,12⟩] .right
    ⟨13,12⟩ 0 (by decide) (by decide) (by decide)
  refine ⟨?_, ?_, ?_⟩
  · rw [h.2.2.1]
    decide
  · exact h.2.1.mpr (by decide)
  · exact ((h.2.2.2.2 (by decide)).2 (by decide)).1

/-- C7: whenever some grid cell is free, `spawnFood` returns an in-grid
cell not occupied by the snake; when the snake covers the whole grid it
returns the snake's head cell. -/
theorem spawnFood_spec (snake : List Point) (k : Nat) :
    ((∃ c, inGrid c ∧ c ∉ snake) → k < (emptyCells snake).length →
      inGrid (spawnFood snake k) ∧ spawnFood snake k ∉ snake) ∧
    ((∀ c, inGrid c → c ∈ snake) → spawnFood snake k = snake.headD ⟨0, 0⟩) := by
  constructor
  · rintro ⟨c, hc1, hc2⟩ hk
    have hmem := mem_emptyCells.mp (spawnFood_mem hk)
    exact ⟨hmem.1, hmem.2⟩
  · intro h
    exact spawnFood_of_full (emptyCells_eq_nil_of_full h) k

set_option maxRecDepth 40000 in
/-- Witness for C7: a one-cell snake leaves free cells and the spawned
food avoids it; a snake covering all cells gets its head back. -/
theorem spawnFood_spec_witness :
    (inGrid (spawnFood [(⟨0,0⟩ : Point)] 0) ∧
      spawnFood [(⟨0,0⟩ : Point)] 0 ∉ [(⟨0,0⟩ : Point)]) ∧
    spawnFood allCells 0 = allCells.headD ⟨0, 0⟩ :=
  ⟨(spawnFood_spec [⟨0,0⟩] 0).1 ⟨⟨1,0⟩, by decide, by decide⟩ (by decide),
   (spawnFood_spec allCells 0).2 (fun c hc => mem_allCells.mpr hc)⟩

/-- C6: `resolveDirectionInput` maps the arrow keys case-insensitively to
their absolute headings, w to the current heading, a and d to the left and
right turns — `LEFT_TURN` being the cycle up, left, down, right and
`RIGHT_TURN` its inverse — and every other key to none. -/
theorem resolveDirectionInput_spec (key : String) (d : Direction) :
    (toLowerCase key = "arrowup" → resolveDirectionInput key d = some .up) ∧
    (toLowerCase key = "arrowright" → resolveDirectionInput key d = some .right) ∧
    (toLowerCase key = "arrowdown" → resolveDirectionInput key d = some .down) ∧
    (toLowerCase key = "arrowleft" → resolveDirectionInput key d = some .left) ∧
    (toLowerCase key = "w" → resolveDirectionInput key d = some d) ∧
    (toLowerCase key = "a" → resolveDirectionInput key d = some (LEFT_TURN d)) ∧
    (toLowerCase key = "d" → resolveDirectionInput key d = some (RIGHT_TURN d)) ∧
    (toLowerCase key ∉ (["arrowup", "arrowright", "arrowdown", "arrowleft", "w",
        "a", "d"] : List String) → resolveDirectionInput key d = none) ∧
    (LEFT_TURN .up = .left ∧ LEFT_TURN .left = .down ∧
      LEFT_TURN .down = .right ∧ LEFT_TURN .right = .up) ∧
    (∀ x : Direction,
      RIGHT_TURN (LEFT_TURN x) = x ∧ LEFT_TURN (RIGHT_TURN x) = x) := by
  refine ⟨?_, ?_, ?_, ?_, ?_, ?_, ?_, ?_, ⟨rfl, rfl, rfl, rfl⟩,
    fun x => by cases x <;> exact ⟨rfl, rfl⟩⟩ <;> intro h
  · simp [resolveDirectionInput, h]
  · simp [resolveDirectionInput, h]
  · simp [resolveDirectionInput, h]
  · simp [resolveDirectionInput, h]
  · simp [resolveDirectionInput, h]
  · simp [resolveDirectionInput, h]
  · simp [resolveDirectionInput, h]
  · simp only [List.mem_cons, List.not_mem_nil, not_or, or_false] at h
    obtain ⟨h1, h2, h3, h4, h5, h6, h7⟩ := h
    simp [resolveDirectionInput, h1, h2, h3, h4, h5, h6, h7]

/-- Witness for C6 at an uppercase arrow key, a relative turn and an
unrecognized key. -/
theorem resolveDirectionInput_spec_witness :
    resolveDirectionInput "ArrowUp" .right = some .up ∧
    resolveDirectionInput "A" .up = some (LEFT_TURN .up) ∧
    resolveDirectionInput "q" .up = none :=
  ⟨(resolveDirectionInput_spec "ArrowUp" .right).1 (by decide),
   (resolveDirectionInput_spec "A" .up).2.2.2.2.2.1 (by decide),
   (resolveDirectionInput_spec "q" .up).2.2.2.2.2.2.2.1 (by decide)⟩

end Snake
